import Mathlib

/-!
Shallow embedding of the DNS forwarding proxy in `cmd/ctrld/dns_proxy.go`
(repository `ctrld`).  Strings are modelled by Lean strings, operating on
their underlying character lists where the Go code uses the `strings`
package.  DNS messages are modelled structurally (id, question, rcode and
the three resource-record sections with their TTL fields); wall-clock
times are integers counting seconds.  The network collaborators
(`ctrld.NewResolver` / `Resolver.Resolve`) live outside the repository, so
resolution outcomes are supplied by an oracle indexed by upstream position
and attempt number (the code performs at most two attempts per upstream,
with a re-bootstrap between them whose transport side effect is not
observable here).  Logging and the `context.Context` plumbing are not
modelled.  The cache store (`internal/dnscache`) is not part of the
provided sources; its key and store are modelled from the spec, see
`CacheKey` below.
-/

/-- Constant `staleTTL` from the source: 60 seconds. -/
def staleTTL : Int := 60

/-- Numeric value of `dns.TypePTR` in the DNS wire protocol. -/
def TypePTR : Nat := 12

/-- Numeric value of `dns.TypeOPT` in the DNS wire protocol. -/
def TypeOPT : Nat := 41

/-- Numeric value of `dns.RcodeSuccess`. -/
def RcodeSuccess : Nat := 0

/-- Numeric value of `dns.RcodeServerFailure` (SERVFAIL). -/
def RcodeServerFailure : Nat := 2

/-- Numeric value of `dns.RcodeRefused` (REFUSED). -/
def RcodeRefused : Nat := 5

/-- Whitespace predicate embedding Go `unicode.IsSpace` on the Latin-1
range (space, tab, LF, VT, FF, CR, NEL, NBSP); White_Space code points
above U+00FF are not modelled. -/
def goIsSpace (c : Char) : Bool :=
  c.toNat = 9 || c.toNat = 10 || c.toNat = 11 || c.toNat = 12 ||
  c.toNat = 13 || c.toNat = 32 || c.toNat = 133 || c.toNat = 160

/-- Embedding of Go `strings.Split(s, sep)` for a one-character separator:
splits around every occurrence of the character, keeping empty parts. -/
def splitOnChar (c : Char) : List Char → List (List Char)
  | [] => [[]]
  | x :: xs =>
    if x = c then [] :: splitOnChar c xs
    else
      match splitOnChar c xs with
      | [] => [[x]]
      | y :: ys => (x :: y) :: ys

/-- Embedding of Go `strings.TrimPrefix`: drops `pre` from the front of
`s` when it is a prefix, otherwise returns `s` unchanged. -/
def trimPre (pre s : String) : String :=
  if pre.data.isPrefixOf s.data then String.mk (s.data.drop pre.data.length) else s

/-- Left half of Go `strings.TrimSpace`. -/
def trimLeftSpace (l : List Char) : List Char := l.dropWhile goIsSpace

/-- Right half of Go `strings.TrimSpace`. -/
def trimRightSpace (l : List Char) : List Char := (l.reverse.dropWhile goIsSpace).reverse

/-- Embedding of Go `strings.TrimSpace` on character lists. -/
def trimSpaceL (l : List Char) : List Char := trimRightSpace (trimLeftSpace l)

/-- Embedding of Go `strings.TrimSuffix(s, ".")`: removes one trailing dot
when present. -/
def trimDotSuffixL (l : List Char) : List Char :=
  if l.getLast? = some '.' then l.dropLast else l

/-- Character-list core of `canonicalName`: trim whitespace, trim one
trailing dot, lower-case (Go `strings.ToLower`, ASCII range: the function
lower-cases the letters A-Z and fixes every other character, which agrees
with Lean `Char.toLower`). -/
def canonList (l : List Char) : List Char :=
  (trimDotSuffixL (trimSpaceL l)).map Char.toLower

/-- Source function `canonicalName`: canonical name from an FQDN with the
trailing "." trimmed. -/
def canonicalName (fqdn : String) : String := String.mk (canonList fqdn.data)

/-- Character-list core of source function `wildcardMatches`. -/
def wildcardMatchesL (wildcard domain : List Char) : Bool :=
  match splitOnChar '*' wildcard with
  | [p, s] =>
    if p.length > 0 && s.length > 0 then
      p.isPrefixOf domain && s.isSuffixOf domain
    else if s.length > 0 then
      s.isSuffixOf domain
    else if p.length > 0 then
      p.isPrefixOf domain
    else false
  | _ => false

/-- Source function `wildcardMatches` on strings. -/
def wildcardMatches (wildcard domain : String) : Bool :=
  wildcardMatchesL wildcard.data domain.data

/-- Source function `containRcode`: linear scan for the rcode. -/
def containRcode (rcodes : List Nat) (rcode : Nat) : Bool :=
  match rcodes with
  | [] => false
  | r :: rest => if r = rcode then true else containRcode rest rcode

/-- A DNS question: name, type, class. -/
structure Question where
  name : String
  qtype : Nat
  qclass : Nat
deriving DecidableEq

/-- Default question used when reading the head of an empty question
section (the Go code indexes `Question[0]` and would panic there; every
claim instantiates messages with a non-empty question section). -/
def defaultQuestion : Question := ⟨"", 0, 0⟩

/-- A resource record, reduced to the fields the proxy reads or writes:
its record type and its TTL. -/
structure RR where
  rrtype : Nat
  ttl : Nat
deriving DecidableEq

/-- A DNS message, reduced to the fields the proxy reads or writes. -/
structure DnsMsg where
  id : Nat
  question : List Question
  rcode : Nat
  answer : List RR
  ns : List RR
  extra : List RR
  compress : Bool
deriving DecidableEq

/-- The zero message produced by Go `new(dns.Msg)`. -/
def emptyMsg : DnsMsg := ⟨0, [], 0, [], [], [], false⟩

/-- Embedding of `dns.Msg.SetReply` from the miekg/dns library, restricted
to the modelled fields: copy the request id, reset the rcode, and copy the
first question of the request when it has one. -/
def setReply (m req : DnsMsg) : DnsMsg :=
  { m with
    id := req.id
    rcode := RcodeSuccess
    question := match req.question with
                | [] => m.question
                | q :: _ => [q] }

/-- Embedding of `dns.Msg.SetRcode`: `SetReply` followed by setting the
rcode. -/
def setRcode (m req : DnsMsg) (rcode : Nat) : DnsMsg :=
  { setReply m req with rcode := rcode }

/-- Overwrite the TTL of a record. -/
def setTTL (t : Nat) (rr : RR) : RR := { rr with ttl := t }

/-- Source function `setCachedAnswerTTL`: when the expiry is not in the
past, set the TTL of every answer and authority record and of every
non-OPT additional record to the remaining seconds (Go converts the float
seconds to `uint32`, modelled by truncation modulo 2^32). -/
def setCachedAnswerTTL (answer : DnsMsg) (now expiredTime : Int) : DnsMsg :=
  let ttlSecs : Int := expiredTime - now
  if ttlSecs < 0 then answer
  else
    let ttl : Nat := ttlSecs.toNat % 4294967296
    { answer with
      answer := answer.answer.map (setTTL ttl)
      ns := answer.ns.map (setTTL ttl)
      extra := answer.extra.map (fun rr => if rr.rrtype ≠ TypeOPT then setTTL ttl rr else rr) }

/-- Source function `ttlFromMsg`: TTL of the first answer record, else of
the first authority record, else 0. -/
def ttlFromMsg (msg : DnsMsg) : Nat :=
  match msg.answer with
  | rr :: _ => rr.ttl
  | [] =>
    match msg.ns with
    | rr :: _ => rr.ttl
    | [] => 0

/-- Modelled from the spec: `dnscache.NewKey` is not among the provided
sources; per the spec the cache key is derived from the query name, type
and class together with the upstream identifier, and entries are
per-upstream. -/
structure CacheKey where
  name : String
  qtype : Nat
  qclass : Nat
  upstream : String
deriving DecidableEq

/-- Modelled from the spec: key derivation of `dnscache.NewKey` from a
message's first question and the upstream identifier. -/
def newKey (msg : DnsMsg) (upstream : String) : CacheKey :=
  let q := msg.question.headD defaultQuestion
  ⟨q.name, q.qtype, q.qclass, upstream⟩

/-- Modelled from the spec: `dnscache.NewValue` pairs the cached message
with its absolute expiry time. -/
structure CacheValue where
  msg : DnsMsg
  expire : Int
deriving DecidableEq

/-- Modelled from the spec: the cache store is a key-value store; it is
embedded as an association list where the most recent insertion for a key
wins. -/
abbrev Cache : Type := List (CacheKey × CacheValue)

/-- Modelled from the spec: cache read (`p.cache.Get`). -/
def cacheGet (c : Cache) (k : CacheKey) : Option CacheValue :=
  (c.find? (fun e => decide (e.1 = k))).map (fun e => e.2)

/-- Modelled from the spec: cache insertion (`p.cache.Add`),
last-writer-wins. -/
def cacheAdd (c : Cache) (k : CacheKey) (v : CacheValue) : Cache :=
  (k, v) :: c

/-- Upstream resolver configuration (`ctrld.UpstreamConfig`), reduced to
the fields the proxy reads. -/
structure UpstreamConfig where
  name : String
  typ : String
  timeout : Int
deriving DecidableEq

/-- Source variable `osUpstreamConfig`: the synthetic OS-resolver
upstream (type OS, 2000 ms timeout). -/
def osUpstreamConfig : UpstreamConfig :=
  { name := "OS resolver", typ := "os", timeout := 2000 }

/-- A CIDR block (`net.IPNet`), for IPv4 addresses modelled as 32-bit
naturals: base address and mask length. -/
structure IPNet where
  base : Nat
  maskBits : Nat
deriving DecidableEq

/-- Embedding of `net.IPNet.Contains`; a missing source IP (the Go code
passes a nil `net.IP` when the transport address is neither UDP nor TCP)
is contained in no block. -/
def ipNetContains (n : IPNet) (ip : Option Nat) : Bool :=
  match ip with
  | none => false
  | some a => decide (a / 2 ^ (32 - n.maskBits) = n.base / 2 ^ (32 - n.maskBits))

/-- Named network (`ctrld.NetworkConfig`), reduced to its CIDR blocks. -/
structure NetworkConfig where
  ipNets : List IPNet
deriving DecidableEq

/-- A policy (`ctrld.ListenerPolicyConfig`): name, network rules, domain
rules, failover rcodes.  Each rule is a single source/targets pair (the
Go type is a one-entry map; config validation ensures the single entry,
as stated at the rule-iteration site in `upstreamFor`). -/
structure Policy where
  name : String
  networks : List (String × List String)
  rules : List (String × List String)
  failoverRcodeNumbers : List Nat
deriving DecidableEq

/-- Listener configuration (`ctrld.ListenerConfig`), reduced to the
fields the DNS path reads. -/
structure ListenerConfig where
  ip : String
  port : Nat
  policy : Option Policy
  restricted : Bool
deriving DecidableEq

/-- Service-level cache knobs (`ctrld.ServiceConfig`). -/
structure ServiceConfig where
  cacheServeStale : Bool
  cacheTTLOverride : Int
deriving DecidableEq

/-- The configuration tables the DNS path reads (`ctrld.Config`); maps
are embedded as association lists. -/
structure Config where
  network : List (String × NetworkConfig)
  upstream : List (String × UpstreamConfig)
  service : ServiceConfig
deriving DecidableEq

/-- Association-list lookup, embedding a Go map read (missing key gives
the zero value, here `none`). -/
def lookupTable {α : Type} (t : List (String × α)) (k : String) : Option α :=
  (t.find? (fun e => decide (e.1 = k))).map (fun e => e.2)

/-- The program state `prog` as the DNS path sees it: configuration, the
cache-enabled flag (`p.cache != nil`) and the cache content. -/
structure Prog where
  cfg : Config
  cacheEnabled : Bool
  cache : Cache

/-- A transport address (`net.Addr`) as `upstreamFor` inspects it: a UDP
or TCP address carrying a source IP, or any other address type. -/
inductive NetAddr where
  | udp (ip : Nat)
  | tcp (ip : Nat)
  | other
deriving DecidableEq

/-- The source-IP extraction switch of `upstreamFor`. -/
def sourceIPOf : NetAddr → Option Nat
  | NetAddr.udp ip => some ip
  | NetAddr.tcp ip => some ip
  | NetAddr.other => none

/-- The `networkRules` loop of `upstreamFor`: first network rule whose
referenced network exists and has a CIDR block containing the source IP
(rules whose network is missing from the table are skipped). -/
def findNetworkMatch (p : Prog) (sourceIP : Option Nat) :
    List (String × List String) → Option (String × List String)
  | [] => none
  | (source, targets) :: rest =>
    match lookupTable p.cfg.network (trimPre "network." source) with
    | none => findNetworkMatch p sourceIP rest
    | some nc =>
      if nc.ipNets.any (fun ipNet => ipNetContains ipNet sourceIP) then
        some (source, targets)
      else findNetworkMatch p sourceIP rest

/-- The domain-rule loop of `upstreamFor`: first rule whose source equals
the domain or wildcard-matches it. -/
def findDomainMatch (domain : String) :
    List (String × List String) → Option (String × List String)
  | [] => none
  | (source, targets) :: rest =>
    if source = domain || wildcardMatches source domain then some (source, targets)
    else findDomainMatch domain rest

/-- The full result of `upstreamFor`: the upstream list and matched flag
it returns, together with the audit strings its deferred log line emits
(matched policy, matched network — annotated " (unenforced)" when a
network rule matched with a non-empty target list but a domain rule
overrode it — and matched rule). -/
structure MatchResult where
  upstreams : List String
  matched : Bool
  matchedPolicy : String
  matchedNetwork : String
  matchedRule : String
deriving DecidableEq

/-- Source method `upstreamFor` with its audit output.  The network scan
runs first; a domain-rule match then returns early with the domain rule's
targets; otherwise a network match returns the network targets; otherwise
the listener's default upstream with matched = false. -/
def upstreamForFull (p : Prog) (defaultUpstreamNum : String) (lc : ListenerConfig)
    (addr : NetAddr) (domain : String) : MatchResult :=
  let upstreams := ["upstream." ++ defaultUpstreamNum]
  match lc.policy with
  | none => ⟨upstreams, false, "no policy", "no network", "no rule"⟩
  | some pol =>
    let sourceIP := sourceIPOf addr
    match findNetworkMatch p sourceIP pol.networks with
    | some (nsource, ntargets) =>
      match findDomainMatch domain pol.rules with
      | some (dsource, dtargets) =>
        ⟨dtargets, true, pol.name,
         if ntargets.length > 0 then nsource ++ " (unenforced)" else nsource,
         dsource⟩
      | none => ⟨ntargets, true, pol.name, nsource, "no rule"⟩
    | none =>
      match findDomainMatch domain pol.rules with
      | some (dsource, dtargets) => ⟨dtargets, true, pol.name, "no network", dsource⟩
      | none => ⟨upstreams, false, "no policy", "no network", "no rule"⟩

/-- The pair `upstreamFor` returns to `serveDNS`. -/
def upstreamFor (p : Prog) (defaultUpstreamNum : String) (lc : ListenerConfig)
    (addr : NetAddr) (domain : String) : List String × Bool :=
  let r := upstreamForFull p defaultUpstreamNum lc addr domain
  (r.upstreams, r.matched)

/-- Source method `upstreamConfigsFromUpstreamNumbers`: one table lookup
per identifier; a missing entry contributes the nil pointer (`none`) and
is still appended. -/
def upstreamConfigsFromUpstreamNumbers (p : Prog) (upstreams : List String) :
    List (Option UpstreamConfig) :=
  upstreams.map (fun u => lookupTable p.cfg.upstream (trimPre "upstream." u))

/-- The substitution step at the top of `proxy`: when the resolved config
list is empty, use the synthetic OS upstream and rename the upstream list
accordingly; otherwise keep both lists. -/
def effectiveUpstreams (p : Prog) (upstreams : List String) :
    List (Option UpstreamConfig) × List String :=
  let upstreamConfigs := upstreamConfigsFromUpstreamNumbers p upstreams
  if upstreamConfigs.length = 0 then ([some osUpstreamConfig], ["upstream.os"])
  else (upstreamConfigs, upstreams)

/-- Resolution oracle standing for the external resolver collaborator:
`attempt n k` is the outcome of attempt `k` (0 or 1) against the upstream
at position `n`; `none` is a resolution error. -/
structure ResolveEnv where
  attempt : Nat → Nat → Option DnsMsg

/-- The `resolve` closure of `proxy`: first attempt, and on error one
re-bootstrap (not observable here) followed by a second attempt; `none`
when both fail. -/
def resolveOnce (env : ResolveEnv) (n : Nat) : Option DnsMsg :=
  match env.attempt n 0 with
  | some a => some a
  | none => env.attempt n 1

/-- The cache-scan loop of `proxy`: walk the upstream identifiers; a hit
is cloned and re-addressed to the live query (`SetRcode` with the cached
rcode); a fresh hit (expiry after now) gets its TTLs rewritten to the
remaining time and short-circuits; an expired hit replaces the running
stale candidate and the scan continues. -/
def scanCache (cache : Cache) (msg : DnsMsg) (now : Int) (stale : Option DnsMsg) :
    List String → Option DnsMsg × Option DnsMsg
  | [] => (none, stale)
  | u :: rest =>
    match cacheGet cache (newKey msg u) with
    | none => scanCache cache msg now stale rest
    | some cv =>
      let answer := setRcode cv.msg msg cv.msg.rcode
      if now < cv.expire then
        (some (setCachedAnswerTTL answer now cv.expire), stale)
      else scanCache cache msg now (some answer) rest

/-- The guarded cache scan at the top of `proxy`: only when a cache is
configured and the query type is not PTR (inverse queries are not read
from the cache, RFC 1035 section 7.4).  Returns the fresh answer, if any,
and the stale candidate. -/
def proxyScanResult (p : Prog) (msg : DnsMsg) (now : Int) (upstreams : List String) :
    Option DnsMsg × Option DnsMsg :=
  if p.cacheEnabled = true ∧ (msg.question.headD defaultQuestion).qtype ≠ TypePTR then
    scanCache p.cache msg now none upstreams
  else (none, none)

/-- The final-answer path of the `proxy` loop (after the failover check):
mark the answer compressible; when a cache is configured, compute the
expiry from the answer's TTL (overridden by a positive cache-TTL
override), rewrite the answer's TTLs to it, and insert it into the cache
keyed by the query and the upstream identifier. -/
def finalizeAnswer (p : Prog) (now : Int) (msg : DnsMsg) (upstream : String)
    (answer0 : DnsMsg) : DnsMsg × Cache :=
  let answer1 := { answer0 with compress := true }
  if p.cacheEnabled = true then
    let ttl := ttlFromMsg answer1
    let expired : Int :=
      if p.cfg.service.cacheTTLOverride > 0 then now + p.cfg.service.cacheTTLOverride
      else now + (ttl : Int)
    let answer2 := setCachedAnswerTTL answer1 now expired
    (answer2, cacheAdd p.cache (newKey msg upstream) ⟨answer2, expired⟩)
  else (answer1, p.cache)

/-- The failed-resolution branch of the `proxy` loop: when stale serving
is enabled and a stale candidate exists, the stale answer is served with
the fixed 60-second stale window; otherwise the loop continues with the
next upstream (`next`). -/
def staleServe (p : Prog) (now : Int) (serveStaleCache : Bool) (staleAnswer : Option DnsMsg)
    (next : DnsMsg × Cache) : DnsMsg × Cache :=
  if serveStaleCache = true then
    match staleAnswer with
    | some st => (setCachedAnswerTTL st now (now + staleTTL), p.cache)
    | none => next
  else next

/-- The upstream loop of `proxy`, one step per candidate config at
position `n`: a failed resolution serves the stale candidate when
stale-serving is on, else continues; a success whose rcode is a
configured failover rcode continues when more than one candidate is
configured; otherwise the answer is finalized and returned.  Exhaustion
yields the synthetic SERVFAIL reply and leaves the cache unchanged. -/
def proxyLoop (p : Prog) (env : ResolveEnv) (msg : DnsMsg) (failoverRcodes : List Nat)
    (upstreams : List String) (serveStaleCache : Bool) (staleAnswer : Option DnsMsg)
    (total : Nat) (now : Int) :
    Nat → List (Option UpstreamConfig) → DnsMsg × Cache
  | _, [] => (setRcode emptyMsg msg RcodeServerFailure, p.cache)
  | n, _cfg :: rest =>
    match resolveOnce env n with
    | none =>
      staleServe p now serveStaleCache staleAnswer
        (proxyLoop p env msg failoverRcodes upstreams serveStaleCache staleAnswer total now
          (n + 1) rest)
    | some answer =>
      if answer.rcode ≠ RcodeSuccess ∧ total > 1 ∧ containRcode failoverRcodes answer.rcode = true
      then
        proxyLoop p env msg failoverRcodes upstreams serveStaleCache staleAnswer total now
          (n + 1) rest
      else finalizeAnswer p now msg (upstreams.getD n "") answer

/-- Source method `proxy`: substitution of the synthetic OS upstream for
an empty config list, the guarded cache scan with its fresh-hit
short-circuit, then the upstream loop (the `serveStaleCache` flag of the
source, `p.cache != nil && p.cfg.Service.CacheServeStale`, is passed
inline).  Returns the reply and the cache as left by the call. -/
def proxy (p : Prog) (env : ResolveEnv) (now : Int) (upstreams0 : List String)
    (failoverRcodes : List Nat) (msg : DnsMsg) : DnsMsg × Cache :=
  match proxyScanResult p msg now (effectiveUpstreams p upstreams0).2 with
  | (some fresh, _) => (fresh, p.cache)
  | (none, staleAnswer) =>
    proxyLoop p env msg failoverRcodes (effectiveUpstreams p upstreams0).2
      (p.cacheEnabled && p.cfg.service.cacheServeStale) staleAnswer
      (effectiveUpstreams p upstreams0).1.length now 0 (effectiveUpstreams p upstreams0).1

/-- The failover rcodes `serveDNS` computes from the listener policy. -/
def listenerFailoverRcodes (lc : ListenerConfig) : List Nat :=
  match lc.policy with
  | some pol => pol.failoverRcodeNumbers
  | none => []

/-- The canonicalized domain of a request as the handler computes it. -/
def requestDomain (m : DnsMsg) : String :=
  canonicalName (m.question.headD defaultQuestion).name

/-- The per-request handler body built in `serveDNS`: canonicalize the
first question's name, consult `upstreamFor`, answer REFUSED when the
listener is restricted and nothing matched, otherwise run `proxy` with
the listener policy's failover rcodes. -/
def handleQuery (p : Prog) (env : ResolveEnv) (now : Int) (listenerNum : String)
    (lc : ListenerConfig) (addr : NetAddr) (m : DnsMsg) : DnsMsg × Cache :=
  if (upstreamFor p listenerNum lc addr (requestDomain m)).2 = false ∧ lc.restricted = true then
    (setRcode emptyMsg m RcodeRefused, p.cache)
  else
    proxy p env now (upstreamFor p listenerNum lc addr (requestDomain m)).1
      (listenerFailoverRcodes lc) m

/-- Character predicate for FQDN labels: ASCII letters, digits, hyphen,
or the label separator dot. -/
def isAllowedChar (c : Char) : Bool :=
  (65 ≤ c.toNat && c.toNat ≤ 90) || (97 ≤ c.toNat && c.toNat ≤ 122) ||
  (48 ≤ c.toNat && c.toNat ≤ 57) || c.toNat = 45 || c.toNat = 46

/-- No two consecutive dots (no empty label). -/
def noDoubleDot : List Char → Bool
  | [] => true
  | [_] => true
  | a :: b :: rest => !(a == '.' && b == '.') && noDoubleDot (b :: rest)

/-- A fully qualified domain name written with its trailing dot: FQDN
characters only (any letter case), ending in a dot, with no empty
label. -/
def validFqdn (s : String) : Bool :=
  s.data.all isAllowedChar && decide (s.data.getLast? = some '.') && noDoubleDot s.data

/-! Concrete instances used to exercise the definitions. -/

/-- A PTR question for a reverse lookup. -/
def ptrQuestion : Question := ⟨"4.3.2.1.in-addr.arpa.", TypePTR, 1⟩

/-- A PTR query message. -/
def ptrMsg : DnsMsg := ⟨5, [ptrQuestion], 0, [], [], [], false⟩

/-- A successful PTR response with a 120-second record. -/
def ptrAns : DnsMsg := ⟨5, [ptrQuestion], 0, [⟨TypePTR, 120⟩], [], [], false⟩

/-- Oracle whose first upstream answers the PTR query on the first
attempt. -/
def ptrEnv : ResolveEnv := ⟨fun n k => if n = 0 ∧ k = 0 then some ptrAns else none⟩

/-- A program with one configured upstream and an enabled, empty cache. -/
def cacheProg : Prog := ⟨⟨[], [("0", ⟨"u0", "doh", 5000⟩)], ⟨false, 0⟩⟩, true, []⟩

/-- A program whose upstream table is empty. -/
def emptyUpstreamProg : Prog := ⟨⟨[], [], ⟨false, 0⟩⟩, false, []⟩

/-- A /8 network covering 10.0.0.0. -/
def lanNet : NetworkConfig := ⟨[⟨0x0A000000, 8⟩]⟩

/-- A policy whose network rule has an empty target list and whose domain
rule targets upstream 1. -/
def emptyTargetPolicy : Policy :=
  ⟨"pol", [("network.lan", [])], [("ads.example.com", ["upstream.1"])], []⟩

/-- A program knowing the LAN network and two upstreams. -/
def lanProg : Prog :=
  ⟨⟨[("lan", lanNet)], [("0", ⟨"u0", "doh", 5000⟩), ("1", ⟨"u1", "doh", 5000⟩)], ⟨false, 0⟩⟩,
   false, []⟩

/-- A listener carrying `emptyTargetPolicy`. -/
def emptyTargetListener : ListenerConfig := ⟨"127.0.0.1", 53, some emptyTargetPolicy, false⟩

/-- A policy with a LAN network rule targeting upstream 0 and a domain
rule targeting upstream 1. -/
def lanPolicy : Policy :=
  ⟨"pol", [("network.lan", ["upstream.0"])], [("ads.example.com", ["upstream.1"])], [2]⟩

/-- A listener carrying `lanPolicy`. -/
def lanListener : ListenerConfig := ⟨"127.0.0.1", 53, some lanPolicy, false⟩

/-- An ordinary A question. -/
def aQuestion : Question := ⟨"example.com.", 1, 1⟩

/-- An ordinary A query message. -/
def aMsg : DnsMsg := ⟨77, [aQuestion], 0, [], [], [], false⟩

/-- A SERVFAIL response to `aMsg`. -/
def servfailAns : DnsMsg := ⟨77, [aQuestion], 2, [], [], [], false⟩

/-- A successful response to `aMsg` with a 300-second record and a
non-OPT additional record. -/
def okAns : DnsMsg := ⟨77, [aQuestion], 0, [⟨1, 300⟩], [⟨2, 300⟩], [⟨TypeOPT, 0⟩, ⟨1, 30⟩], false⟩

/-- Oracle whose upstream 0 answers SERVFAIL on the first attempt and
whose upstream 1 answers successfully. -/
def failoverEnv : ResolveEnv :=
  ⟨fun n k => if k = 0 then (if n = 0 then some servfailAns else some okAns) else none⟩

/-- Oracle that always fails. -/
def allFailEnv : ResolveEnv := ⟨fun _ _ => none⟩

/-- A program with a single configured upstream and no cache. -/
def oneUpstreamProg : Prog := ⟨⟨[], [("0", ⟨"u0", "doh", 5000⟩)], ⟨false, 0⟩⟩, false, []⟩

/-- The cache key of `aMsg` resolved through upstream 0. -/
def aKey : CacheKey := newKey aMsg "upstream.0"

/-- A program holding a cached response for `aMsg` that expires at time
300, with the cache enabled and stale serving switched on. -/
def staleProg : Prog :=
  ⟨⟨[], [("0", ⟨"u0", "doh", 5000⟩)], ⟨true, 0⟩⟩, true,
   cacheAdd [] aKey ⟨okAns, 300⟩⟩

/-- A restricted listener without a policy. -/
def restrictedNoPolicyListener : ListenerConfig := ⟨"127.0.0.1", 53, none, true⟩

/-- A policy matching neither the test source address nor the test
domain. -/
def unmatchedPolicy : Policy :=
  ⟨"pol", [("network.lan", ["upstream.0"])], [("ads.example.com", ["upstream.1"])], [2]⟩

/-- A restricted listener carrying `unmatchedPolicy`. -/
def restrictedListener : ListenerConfig := ⟨"127.0.0.1", 53, some unmatchedPolicy, true⟩

/-- An unrestricted listener carrying `unmatchedPolicy`. -/
def openListener : ListenerConfig := ⟨"127.0.0.1", 53, some unmatchedPolicy, false⟩

/-! Helper lemmas about the embedded string functions. -/

theorem splitOnChar_ne_nil (c : Char) (l : List Char) : splitOnChar c l ≠ [] := by
  induction l with
  | nil => simp [splitOnChar]
  | cons x xs ih =>
    by_cases h : x = c
    · simp [splitOnChar, if_pos h]
    · simp only [splitOnChar, if_neg h]
      cases hs : splitOnChar c xs with
      | nil => exact absurd hs ih
      | cons y ys => simp

theorem splitOnChar_length (c : Char) (l : List Char) :
    (splitOnChar c l).length = l.count c + 1 := by
  induction l with
  | nil => simp [splitOnChar]
  | cons x xs ih =>
    by_cases h : x = c
    · subst h
      simp [splitOnChar, List.count_cons, ih]
    · simp only [splitOnChar, if_neg h]
      cases hs : splitOnChar c xs with
      | nil => exact absurd hs (splitOnChar_ne_nil c xs)
      | cons y ys =>
        rw [hs] at ih
        simp only [List.length_cons] at ih ⊢
        have hxc : (x == c) = false := by simp [h]
        simp [List.count_cons, hxc]
        omega

theorem splitOnChar_eq_single (c : Char) (l s : List Char) :
    splitOnChar c l = [s] ↔ l = s ∧ c ∉ s := by
  induction l generalizing s with
  | nil =>
    constructor
    · intro h
      have h0 : splitOnChar c ([] : List Char) = [[]] := rfl
      rw [h0] at h
      simp only [List.cons.injEq, and_true] at h
      subst h
      exact ⟨rfl, by simp⟩
    · rintro ⟨rfl, -⟩
      rfl
  | cons x xs ih =>
    simp only [splitOnChar]
    by_cases h : x = c
    · rw [if_pos h]
      constructor
      · intro he
        simp only [List.cons.injEq] at he
        exact absurd he.2 (splitOnChar_ne_nil c xs)
      · rintro ⟨rfl, hns⟩
        exact absurd (by rw [← h]; exact List.mem_cons_self x xs) hns
    · rw [if_neg h]
      cases hsplit : splitOnChar c xs with
      | nil => exact absurd hsplit (splitOnChar_ne_nil c xs)
      | cons y ys =>
        constructor
        · intro he
          simp only [List.cons.injEq] at he
          obtain ⟨h1, h2⟩ := he
          subst h2
          have h3 := (ih y).mp hsplit
          obtain ⟨rfl, hy⟩ := h3
          subst h1
          refine ⟨rfl, ?_⟩
          intro hm
          rcases List.mem_cons.mp hm with h4 | h4
          · exact h h4.symm
          · exact hy h4
        · rintro ⟨rfl, hns⟩
          have hx : c ∉ xs := fun hm => hns (List.mem_cons_of_mem _ hm)
          have h2 := (ih xs).mpr ⟨rfl, hx⟩
          rw [hsplit] at h2
          simp only [List.cons.injEq] at h2
          obtain ⟨rfl, rfl⟩ := h2
          rfl

theorem splitOnChar_eq_pair (c : Char) (l p s : List Char) :
    splitOnChar c l = [p, s] ↔ l = p ++ c :: s ∧ c ∉ p ∧ c ∉ s := by
  induction l generalizing p with
  | nil =>
    constructor
    · intro h
      have h0 : splitOnChar c ([] : List Char) = [[]] := rfl
      rw [h0] at h
      simp at h
    · rintro ⟨heq, -, -⟩
      exact absurd heq.symm (by simp)
  | cons x xs ih =>
    simp only [splitOnChar]
    by_cases h : x = c
    · rw [if_pos h]
      constructor
      · intro he
        simp only [List.cons.injEq] at he
        obtain ⟨h1, h2⟩ := he
        have h3 := (splitOnChar_eq_single c xs s).mp h2
        obtain ⟨rfl, h4⟩ := h3
        subst h1
        exact ⟨by simp [h], by simp, h4⟩
      · rintro ⟨heq, hp, hs'⟩
        cases p with
        | nil =>
          simp only [List.nil_append] at heq
          injection heq with hxc hxs
          subst hxs
          simp [(splitOnChar_eq_single c xs xs).mpr ⟨rfl, hs'⟩]
        | cons a p' =>
          simp only [List.cons_append, List.cons.injEq] at heq
          obtain ⟨rfl, -⟩ := heq
          exact absurd (by rw [← h]; exact List.mem_cons_self x p') hp
    · rw [if_neg h]
      cases hsplit : splitOnChar c xs with
      | nil => exact absurd hsplit (splitOnChar_ne_nil c xs)
      | cons y ys =>
        constructor
        · intro he
          simp only [List.cons.injEq] at he
          obtain ⟨h1, hys⟩ := he
          subst hys
          have h3 := (ih y).mp hsplit
          obtain ⟨heq, hcy, hcs⟩ := h3
          subst h1
          subst heq
          refine ⟨by simp, ?_, hcs⟩
          intro hm
          rcases List.mem_cons.mp hm with h4 | h4
          · exact h h4.symm
          · exact hcy h4
        · rintro ⟨heq, hcp, hcs⟩
          cases p with
          | nil =>
            simp only [List.nil_append] at heq
            injection heq with h1 h2
            exact absurd h1 h
          | cons a p' =>
            simp only [List.cons_append, List.cons.injEq] at heq
            obtain ⟨rfl, h2⟩ := heq
            have hcp' : c ∉ p' := fun hm => hcp (List.mem_cons_of_mem _ hm)
            have h3 := (ih p').mpr ⟨h2, hcp', hcs⟩
            rw [hsplit] at h3
            simp only [List.cons.injEq] at h3
            obtain ⟨rfl, rfl⟩ := h3
            rfl

theorem wildcardMatchesL_pair (w d p0 s0 : List Char)
    (hsp : splitOnChar '*' w = [p0, s0]) :
    wildcardMatchesL w d = true ↔
      ((p0 ≠ [] ∧ s0 ≠ [] ∧ p0.isPrefixOf d = true ∧ s0.isSuffixOf d = true) ∨
       (p0 = [] ∧ s0 ≠ [] ∧ s0.isSuffixOf d = true) ∨
       (s0 = [] ∧ p0 ≠ [] ∧ p0.isPrefixOf d = true)) := by
  unfold wildcardMatchesL
  rw [hsp]
  by_cases h1 : p0 = [] <;> by_cases h2 : s0 = []
  · subst h1; subst h2; simp
  · subst h1; simp [h2, List.length_pos]
  · subst h2; simp [h1, List.length_pos]
  · simp [h1, h2, List.length_pos]

theorem wildcardMatchesL_iff (w d : List Char) :
    wildcardMatchesL w d = true ↔
      ∃ p s, w = p ++ '*' :: s ∧ '*' ∉ p ∧ '*' ∉ s ∧
        ((p ≠ [] ∧ s ≠ [] ∧ p.isPrefixOf d = true ∧ s.isSuffixOf d = true) ∨
         (p = [] ∧ s ≠ [] ∧ s.isSuffixOf d = true) ∨
         (s = [] ∧ p ≠ [] ∧ p.isPrefixOf d = true)) := by
  cases hsp : splitOnChar '*' w with
  | nil => exact absurd hsp (splitOnChar_ne_nil _ _)
  | cons p0 t =>
    cases t with
    | nil =>
      constructor
      · intro ht
        exfalso
        unfold wildcardMatchesL at ht
        rw [hsp] at ht
        simp at ht
      · rintro ⟨p, s, heq, hp, hs, -⟩
        have h2 := (splitOnChar_eq_pair '*' w p s).mpr ⟨heq, hp, hs⟩
        rw [hsp] at h2
        simp at h2
    | cons s0 t2 =>
      cases t2 with
      | cons z t3 =>
        constructor
        · intro ht
          exfalso
          unfold wildcardMatchesL at ht
          rw [hsp] at ht
          simp at ht
        · rintro ⟨p, s, heq, hp, hs, -⟩
          have h2 := (splitOnChar_eq_pair '*' w p s).mpr ⟨heq, hp, hs⟩
          rw [hsp] at h2
          simp at h2
      | nil =>
        rw [wildcardMatchesL_pair w d p0 s0 hsp]
        have hdec := (splitOnChar_eq_pair '*' w p0 s0).mp hsp
        obtain ⟨heqw, hp0, hs0⟩ := hdec
        constructor
        · intro hcond
          exact ⟨p0, s0, heqw, hp0, hs0, hcond⟩
        · rintro ⟨p, s, heq, hp, hs, hcond⟩
          have h2 := (splitOnChar_eq_pair '*' w p s).mpr ⟨heq, hp, hs⟩
          rw [hsp] at h2
          simp only [List.cons.injEq, and_true] at h2
          obtain ⟨rfl, rfl⟩ := h2
          exact hcond

theorem wildcardMatchesL_of_count_ne_one (w d : List Char) (h : w.count '*' ≠ 1) :
    wildcardMatchesL w d = false := by
  have hlen := splitOnChar_length '*' w
  cases hsp : splitOnChar '*' w with
  | nil => exact absurd hsp (splitOnChar_ne_nil _ _)
  | cons p0 t =>
    cases t with
    | nil =>
      unfold wildcardMatchesL
      rw [hsp]
    | cons s0 t2 =>
      cases t2 with
      | nil =>
        rw [hsp] at hlen
        simp at hlen
        omega
      | cons z t3 =>
        unfold wildcardMatchesL
        rw [hsp]

theorem toLower_idem (c : Char) : c.toLower.toLower = c.toLower := by
  unfold Char.toLower
  by_cases h : 65 ≤ c.toNat ∧ c.toNat ≤ 90
  · rw [if_pos h]
    obtain ⟨h1, h2⟩ := h
    interval_cases h3 : c.toNat <;> decide
  · rw [if_neg h, if_neg h]

theorem toLower_eq_dot_iff (c : Char) : c.toLower = '.' ↔ c = '.' := by
  unfold Char.toLower
  by_cases h : 65 ≤ c.toNat ∧ c.toNat ≤ 90
  · rw [if_pos h]
    constructor
    · intro hd
      exfalso
      obtain ⟨h1, h2⟩ := h
      interval_cases h3 : c.toNat <;> revert hd <;> decide
    · intro hd
      subst hd
      exact absurd h (by decide)
  · rw [if_neg h]

theorem toLower_allowed (c : Char) (h : isAllowedChar c = true) :
    isAllowedChar c.toLower = true := by
  unfold Char.toLower
  by_cases hc : 65 ≤ c.toNat ∧ c.toNat ≤ 90
  · rw [if_pos hc]
    obtain ⟨h1, h2⟩ := hc
    interval_cases h3 : c.toNat <;> decide
  · rw [if_neg hc]
    exact h

theorem allowed_not_space (c : Char) (h : isAllowedChar c = true) :
    goIsSpace c = false := by
  unfold isAllowedChar at h
  unfold goIsSpace
  simp only [Bool.or_eq_true, Bool.and_eq_true, decide_eq_true_eq] at h
  simp only [Bool.or_eq_false_iff, decide_eq_false_iff_not]
  omega

theorem noDoubleDot_concat (l : List Char) (x y : Char)
    (h : noDoubleDot (l ++ [x, y]) = true) : ¬(x = '.' ∧ y = '.') := by
  induction l with
  | nil =>
    rintro ⟨rfl, rfl⟩
    simp [noDoubleDot] at h
  | cons a l' ih =>
    cases hl : l' ++ [x, y] with
    | nil => exact absurd hl (by simp)
    | cons b t =>
      rw [List.cons_append, hl] at h
      unfold noDoubleDot at h
      simp only [Bool.and_eq_true] at h
      apply ih
      rw [hl]
      exact h.2

theorem dropWhile_of_no_space (l : List Char) (h : ∀ c ∈ l, goIsSpace c = false) :
    l.dropWhile goIsSpace = l := by
  cases l with
  | nil => rfl
  | cons x xs =>
    rw [List.dropWhile_cons, h x (List.mem_cons_self x xs)]
    simp

theorem trimSpaceL_of_allowed (l : List Char) (h : ∀ c ∈ l, goIsSpace c = false) :
    trimSpaceL l = l := by
  unfold trimSpaceL trimLeftSpace trimRightSpace
  rw [dropWhile_of_no_space l h]
  rw [dropWhile_of_no_space l.reverse (fun c hc => h c (List.mem_reverse.mp hc))]
  exact List.reverse_reverse l

theorem map_toLower_idem (l : List Char) :
    (l.map Char.toLower).map Char.toLower = l.map Char.toLower := by
  induction l with
  | nil => rfl
  | cons x xs ih => simp [toLower_idem, ih]

theorem canonList_idem_of_fqdn (l : List Char)
    (hall : l.all isAllowedChar = true)
    (hlast : l.getLast? = some '.')
    (hdd : noDoubleDot l = true) :
    canonList (canonList l) = canonList l := by
  obtain ⟨body, rfl⟩ := List.getLast?_eq_some_iff.mp hlast
  rw [List.all_eq_true] at hall
  have hnos : ∀ c ∈ body ++ ['.'], goIsSpace c = false :=
    fun c hc => allowed_not_space c (hall c hc)
  have hstep1 : canonList (body ++ ['.']) = body.map Char.toLower := by
    unfold canonList
    rw [trimSpaceL_of_allowed _ hnos]
    unfold trimDotSuffixL
    rw [if_pos (List.getLast?_concat body), List.dropLast_concat]
  rw [hstep1]
  have hball : ∀ c ∈ body, isAllowedChar c = true :=
    fun c hc => hall c (List.mem_append_left _ hc)
  have hrnos : ∀ c ∈ body.map Char.toLower, goIsSpace c = false := by
    intro c hc
    obtain ⟨c0, hc0, rfl⟩ := List.mem_map.mp hc
    exact allowed_not_space _ (toLower_allowed c0 (hball c0 hc0))
  unfold canonList
  rw [trimSpaceL_of_allowed _ hrnos]
  have hnotail : trimDotSuffixL (body.map Char.toLower) = body.map Char.toLower := by
    unfold trimDotSuffixL
    cases hb : body.getLast? with
    | none =>
      rw [List.getLast?_eq_none_iff.mp hb]
      rfl
    | some b =>
      obtain ⟨body', rfl⟩ := List.getLast?_eq_some_iff.mp hb
      have hbne : b ≠ '.' := by
        intro hbd
        subst hbd
        exact noDoubleDot_concat body' '.' '.' (by simpa using hdd) ⟨rfl, rfl⟩
      have hgl : (List.map Char.toLower (body' ++ [b])).getLast? = some b.toLower := by
        rw [List.map_append]
        simp only [List.map_cons, List.map_nil]
        exact List.getLast?_concat _
      have hcond : ¬(List.map Char.toLower (body' ++ [b])).getLast? = some '.' := by
        rw [hgl]
        simp only [Option.some.injEq]
        intro hc
        exact hbne ((toLower_eq_dot_iff b).mp hc)
      rw [if_neg hcond]
  rw [hnotail]
  exact map_toLower_idem body

/-! Helper lemmas about the proxy engine. -/

theorem setCachedAnswerTTL_ttls (a : DnsMsg) (now exp : Int)
    (h0 : 0 ≤ exp - now) (h1 : exp - now < 4294967296) :
    (∀ rr ∈ (setCachedAnswerTTL a now exp).answer, rr.ttl = (exp - now).toNat) ∧
    (∀ rr ∈ (setCachedAnswerTTL a now exp).ns, rr.ttl = (exp - now).toNat) ∧
    (∀ rr ∈ (setCachedAnswerTTL a now exp).extra, rr.rrtype ≠ TypeOPT →
      rr.ttl = (exp - now).toNat) := by
  have hmod : (exp - now).toNat % 4294967296 = (exp - now).toNat := by
    apply Nat.mod_eq_of_lt
    omega
  unfold setCachedAnswerTTL
  rw [if_neg (not_lt.mpr h0)]
  refine ⟨?_, ?_, ?_⟩
  · intro rr hrr
    obtain ⟨rr0, -, rfl⟩ := List.mem_map.mp hrr
    simp [setTTL, hmod]
  · intro rr hrr
    obtain ⟨rr0, -, rfl⟩ := List.mem_map.mp hrr
    simp [setTTL, hmod]
  · intro rr hrr hot
    obtain ⟨rr0, -, rfl⟩ := List.mem_map.mp hrr
    by_cases ho : rr0.rrtype ≠ TypeOPT
    · rw [if_pos ho] at hot ⊢
      simp [setTTL, hmod]
    · rw [if_neg ho] at hot
      exact absurd (by push_neg at ho; exact ho) hot

theorem cacheGet_add_self (c : Cache) (k : CacheKey) (v : CacheValue) :
    cacheGet (cacheAdd c k v) k = some v := by
  unfold cacheGet cacheAdd
  rw [List.find?_cons]
  simp

theorem resolveOnce_none (env : ResolveEnv) (n : Nat)
    (hfail : ∀ m k, env.attempt m k = none) : resolveOnce env n = none := by
  unfold resolveOnce
  rw [hfail n 0, hfail n 1]

theorem staleServe_none (p : Prog) (now : Int) (ss : Bool) (next : DnsMsg × Cache) :
    staleServe p now ss none next = next := by
  unfold staleServe
  split <;> rfl

theorem proxyLoop_all_fail (p : Prog) (env : ResolveEnv) (msg : DnsMsg)
    (fr : List Nat) (ups : List String) (ss : Bool) (total : Nat) (now : Int)
    (hfail : ∀ m k, env.attempt m k = none) :
    ∀ (cfgs : List (Option UpstreamConfig)) (n : Nat),
      proxyLoop p env msg fr ups ss none total now n cfgs =
        (setRcode emptyMsg msg RcodeServerFailure, p.cache) := by
  intro cfgs
  induction cfgs with
  | nil => intro n; rfl
  | cons c rest ih =>
    intro n
    rw [proxyLoop.eq_def]
    dsimp only
    rw [resolveOnce_none env n hfail]
    dsimp only
    rw [staleServe_none, ih (n + 1)]

theorem staleServe_some (p : Prog) (now : Int) (st : DnsMsg) (next : DnsMsg × Cache) :
    staleServe p now true (some st) next =
      (setCachedAnswerTTL st now (now + staleTTL), p.cache) := rfl

theorem proxyScanResult_hit_fresh (p : Prog) (msg : DnsMsg) (q : Question) (u : String)
    (ans : DnsMsg) (expired : Int) (c0 : Cache) (now : Int) (rest : List String)
    (hq : msg.question = [q]) (hptr : q.qtype ≠ TypePTR) (hce : p.cacheEnabled = true)
    (hcache : p.cache = cacheAdd c0 (newKey msg u) ⟨ans, expired⟩)
    (hlt : now < expired) :
    proxyScanResult p msg now (u :: rest) =
      (some (setCachedAnswerTTL (setRcode ans msg ans.rcode) now expired), none) := by
  have hcond : p.cacheEnabled = true ∧ (msg.question.headD defaultQuestion).qtype ≠ TypePTR := by
    refine ⟨hce, ?_⟩
    rw [hq]
    exact hptr
  unfold proxyScanResult
  rw [if_pos hcond]
  rw [scanCache.eq_def]
  dsimp only
  rw [hcache, cacheGet_add_self]
  dsimp only
  rw [if_pos hlt]

theorem proxyScanResult_hit_stale (p : Prog) (msg : DnsMsg) (q : Question) (u : String)
    (ans : DnsMsg) (expired : Int) (c0 : Cache) (now : Int)
    (hq : msg.question = [q]) (hptr : q.qtype ≠ TypePTR) (hce : p.cacheEnabled = true)
    (hcache : p.cache = cacheAdd c0 (newKey msg u) ⟨ans, expired⟩)
    (hle : expired ≤ now) :
    proxyScanResult p msg now [u] = (none, some (setRcode ans msg ans.rcode)) := by
  have hcond : p.cacheEnabled = true ∧ (msg.question.headD defaultQuestion).qtype ≠ TypePTR := by
    refine ⟨hce, ?_⟩
    rw [hq]
    exact hptr
  unfold proxyScanResult
  rw [if_pos hcond]
  rw [scanCache.eq_def]
  dsimp only
  rw [hcache, cacheGet_add_self]
  dsimp only
  rw [if_neg (not_lt.mpr hle)]
  rw [scanCache.eq_def]

/-! Claim theorems. -/

/-- Claim C1 (code bug): the source comment above the cache lookup states
that inverse (PTR) queries must not be cached, and the lookup is indeed
guarded, but the insertion path is not: after `proxy` handles a PTR query
whose upstream resolution succeeds, the cache does hold an entry keyed by
the query and upstream (first conjunct), even though a later PTR call
never reads it back (second conjunct: with the entry still fresh at time
10, a failing upstream yields SERVFAIL rather than the cached answer). -/
theorem claim_c1 :
    cacheGet (proxy cacheProg ptrEnv 0 ["upstream.0"] [] ptrMsg).2
        (newKey ptrMsg "upstream.0") =
      some ⟨⟨5, [ptrQuestion], 0, [⟨TypePTR, 120⟩], [], [], true⟩, 120⟩ ∧
    (proxy ⟨cacheProg.cfg, true, (proxy cacheProg ptrEnv 0 ["upstream.0"] [] ptrMsg).2⟩
        allFailEnv 10 ["upstream.0"] [] ptrMsg).1 =
      setRcode emptyMsg ptrMsg RcodeServerFailure := by
  decide

/-- Claim C3, counterexample: an upstream identifier list none of whose
identifiers resolves to a configured upstream is not replaced by the
synthetic OS upstream; the lookup yields a nil entry which is kept, so
the substitution branch (which fires only on an empty list) is not
taken. -/
theorem claim_c3_counterexample :
    upstreamConfigsFromUpstreamNumbers emptyUpstreamProg ["upstream.9"] = [none] ∧
    effectiveUpstreams emptyUpstreamProg ["upstream.9"] = ([none], ["upstream.9"]) ∧
    effectiveUpstreams emptyUpstreamProg ["upstream.9"] ≠
      ([some osUpstreamConfig], ["upstream.os"]) := by
  decide

/-- Claim C3, amended: the synthetic OS-resolver upstream (type OS,
2000 ms timeout) is substituted exactly when the upstream identifier list
is empty; a non-empty list is kept as is, with unresolvable identifiers
contributing nil config entries. -/
theorem claim_c3_amended (p : Prog) (ups : List String) :
    (ups = [] → effectiveUpstreams p ups = ([some osUpstreamConfig], ["upstream.os"])) ∧
    (ups ≠ [] → effectiveUpstreams p ups = (upstreamConfigsFromUpstreamNumbers p ups, ups)) := by
  constructor
  · rintro rfl
    rfl
  · intro h
    have hx : ¬(upstreamConfigsFromUpstreamNumbers p ups).length = 0 := by
      unfold upstreamConfigsFromUpstreamNumbers
      rw [List.length_map]
      intro hlen
      exact h (List.length_eq_zero.mp hlen)
    unfold effectiveUpstreams
    rw [if_neg hx]

/-- Witness for the amended claim C3 at concrete inputs. -/
theorem claim_c3_witness :
    effectiveUpstreams emptyUpstreamProg [] = ([some osUpstreamConfig], ["upstream.os"]) ∧
    effectiveUpstreams emptyUpstreamProg ["upstream.9"] =
      (upstreamConfigsFromUpstreamNumbers emptyUpstreamProg ["upstream.9"], ["upstream.9"]) :=
  ⟨(claim_c3_amended emptyUpstreamProg []).1 rfl,
   (claim_c3_amended emptyUpstreamProg ["upstream.9"]).2 (by decide)⟩

/-- Claim C4, counterexample: a request whose source matches a network
rule whose target list is empty and whose domain matches a domain rule
gets the domain rule's upstreams with matched = true, but the audit
output reports the matched network source without the " (unenforced)"
annotation, because the annotation is only added when the network rule's
target list is non-empty. -/
theorem claim_c4_counterexample :
    ipNetContains ⟨0x0A000000, 8⟩ (some 0x0A000001) = true ∧
    upstreamForFull lanProg "0" emptyTargetListener (NetAddr.udp 0x0A000001)
        "ads.example.com" =
      ⟨["upstream.1"], true, "pol", "network.lan", "ads.example.com"⟩ ∧
    (upstreamForFull lanProg "0" emptyTargetListener (NetAddr.udp 0x0A000001)
        "ads.example.com").matchedNetwork ≠ "network.lan (unenforced)" := by
  decide

/-- Claim C4, amended: when the source address matches a network rule
whose target list is non-empty and the domain matches a domain rule of
the same policy, the domain rule's targets are returned with
matched = true even though the network rule was evaluated first, and the
audit output reports the matched network source annotated
" (unenforced)". -/
theorem claim_c4_amended (p : Prog) (dn : String) (lc : ListenerConfig) (pol : Policy)
    (addr : NetAddr) (domain : String) (nsource dsource : String)
    (ntargets dtargets : List String)
    (hpol : lc.policy = some pol)
    (hnet : findNetworkMatch p (sourceIPOf addr) pol.networks = some (nsource, ntargets))
    (hne : ntargets ≠ [])
    (hdom : findDomainMatch domain pol.rules = some (dsource, dtargets)) :
    upstreamForFull p dn lc addr domain =
      ⟨dtargets, true, pol.name, nsource ++ " (unenforced)", dsource⟩ := by
  unfold upstreamForFull
  rw [hpol]
  dsimp only
  rw [hnet]
  dsimp only
  rw [hdom]
  dsimp only
  rw [if_pos (List.length_pos.mpr hne)]

/-- Witness for the amended claim C4: the concrete scenario of the spec
(LAN network rule targeting upstream 0, domain rule for
ads.example.com targeting upstream 1, request from a LAN address for
that domain). -/
theorem claim_c4_witness :
    upstreamForFull lanProg "0" lanListener (NetAddr.udp 0x0A000001) "ads.example.com" =
      ⟨["upstream.1"], true, "pol", "network.lan (unenforced)", "ads.example.com"⟩ :=
  claim_c4_amended lanProg "0" lanListener lanPolicy (NetAddr.udp 0x0A000001)
    "ads.example.com" "network.lan" "ads.example.com" ["upstream.0"] ["upstream.1"]
    rfl (by decide) (by decide) (by decide)

/-- Claim C5: `wildcardMatches` is true exactly when the pattern splits
as prefix-star-suffix (a unique star) and the domain satisfies the
derived condition: both parts non-empty require prefix and suffix, an
empty prefix requires only the suffix, an empty suffix requires only the
prefix; a pattern whose star count is not one (no star, or more than one
star) never matches, and the bare pattern consisting of a single star
never matches any domain. -/
theorem claim_c5 (w d : String) :
    (wildcardMatches w d = true ↔
      ∃ p s, w.data = p ++ '*' :: s ∧ '*' ∉ p ∧ '*' ∉ s ∧
        ((p ≠ [] ∧ s ≠ [] ∧ p.isPrefixOf d.data = true ∧ s.isSuffixOf d.data = true) ∨
         (p = [] ∧ s ≠ [] ∧ s.isSuffixOf d.data = true) ∨
         (s = [] ∧ p ≠ [] ∧ p.isPrefixOf d.data = true))) ∧
    (w.data.count '*' ≠ 1 → wildcardMatches w d = false) ∧
    (w = "*" → wildcardMatches w d = false) := by
  refine ⟨wildcardMatchesL_iff w.data d.data, ?_, ?_⟩
  · exact fun h => wildcardMatchesL_of_count_ne_one w.data d.data h
  · rintro rfl
    rfl

/-- Witness for claim C5: a two-star pattern never matches, and the bare
star pattern never matches. -/
theorem claim_c5_witness :
    wildcardMatches "a*b*c" "axbxc" = false ∧ wildcardMatches "*" "x" = false :=
  ⟨(claim_c5 "a*b*c" "axbxc").2.1 (by decide), (claim_c5 "*" "x").2.2 rfl⟩

/-- Claim C6: canonicalization is idempotent on fully qualified domain
names with a trailing dot and arbitrary letter case. -/
theorem claim_c6 (s : String) (h : validFqdn s = true) :
    canonicalName (canonicalName s) = canonicalName s := by
  unfold validFqdn at h
  simp only [Bool.and_eq_true, decide_eq_true_eq] at h
  obtain ⟨⟨hall, hlast⟩, hdd⟩ := h
  unfold canonicalName
  exact congrArg String.mk (canonList_idem_of_fqdn s.data hall hlast hdd)

/-- Witness for claim C6 at a mixed-case FQDN with a trailing dot. -/
theorem claim_c6_witness :
    validFqdn "ExAmple.COM." = true ∧
    canonicalName (canonicalName "ExAmple.COM.") = canonicalName "ExAmple.COM." :=
  ⟨by decide, claim_c6 "ExAmple.COM." (by decide)⟩

/-- Claim C10: a restricted listener without a policy answers every query
REFUSED — `upstreamFor` returns matched = false whenever the listener has
no policy, for any source address and domain — and no upstream is
contacted (the reply does not depend on the resolution oracle and the
cache is left unchanged). -/
theorem claim_c10 (p : Prog) (env : ResolveEnv) (now : Int) (ln : String)
    (lc : ListenerConfig) (addr : NetAddr) (m : DnsMsg)
    (hpol : lc.policy = none) (hres : lc.restricted = true) :
    handleQuery p env now ln lc addr m = (setRcode emptyMsg m RcodeRefused, p.cache) ∧
    (upstreamFor p ln lc addr (requestDomain m)).2 = false := by
  have hup : upstreamFor p ln lc addr (requestDomain m) = (["upstream." ++ ln], false) := by
    unfold upstreamFor upstreamForFull
    rw [hpol]
  refine ⟨?_, by rw [hup]⟩
  unfold handleQuery
  rw [hup, hres]
  dsimp only
  rw [if_pos ⟨rfl, rfl⟩]

/-- Witness for claim C10 at a concrete restricted listener with no
policy. -/
theorem claim_c10_witness :
    handleQuery lanProg allFailEnv 0 "0" restrictedNoPolicyListener (NetAddr.udp 1) aMsg =
      (setRcode emptyMsg aMsg RcodeRefused, lanProg.cache) ∧
    (upstreamFor lanProg "0" restrictedNoPolicyListener (NetAddr.udp 1)
      (requestDomain aMsg)).2 = false :=
  claim_c10 lanProg allFailEnv 0 "0" restrictedNoPolicyListener (NetAddr.udp 1) aMsg rfl rfl

/-- Claim C2: in the proxy loop, a successful resolution whose rcode is a
non-success code contained in the failover set is skipped — neither
cached nor returned — and the next upstream is tried, whenever more than
one upstream is in the candidate set (first conjunct: the loop step
equals the loop continued at the next position, with the cache
untouched); with a single configured upstream, a response carrying a
matching failover rcode is returned directly through the final-answer
path (second conjunct). -/
theorem claim_c2 (p : Prog) (env : ResolveEnv) (msg : DnsMsg) (fr : List Nat)
    (ups ups0 : List String) (ss : Bool) (stale : Option DnsMsg) (total : Nat) (now : Int)
    (n : Nat) (c cfg1 : Option UpstreamConfig) (rest : List (Option UpstreamConfig))
    (u1 : String) (st : Option DnsMsg) (a : DnsMsg) :
    (resolveOnce env n = some a → a.rcode ≠ RcodeSuccess → total > 1 →
      containRcode fr a.rcode = true →
      proxyLoop p env msg fr ups ss stale total now n (c :: rest) =
        proxyLoop p env msg fr ups ss stale total now (n + 1) rest) ∧
    (effectiveUpstreams p ups0 = ([cfg1], [u1]) →
      proxyScanResult p msg now [u1] = (none, st) →
      resolveOnce env 0 = some a → a.rcode ≠ RcodeSuccess → containRcode fr a.rcode = true →
      proxy p env now ups0 fr msg = finalizeAnswer p now msg u1 a) := by
  constructor
  · intro h1 h2 h3 h4
    rw [proxyLoop.eq_def]
    dsimp only
    rw [h1]
    dsimp only
    rw [if_pos ⟨h2, h3, h4⟩]
  · intro heu hscan h1 h2 h3
    unfold proxy
    rw [heu]
    dsimp only
    rw [hscan]
    dsimp only
    rw [proxyLoop.eq_def]
    dsimp only
    rw [h1]
    dsimp only
    rw [if_neg]
    · rfl
    · rintro ⟨-, h31, -⟩
      simp at h31

/-- Witness for claim C2: a two-upstream loop step skipping a SERVFAIL
answer, and a single-upstream proxy call returning the SERVFAIL answer
directly. -/
theorem claim_c2_witness :
    proxyLoop oneUpstreamProg failoverEnv aMsg [2] ["upstream.0", "upstream.1"] false none 2 0 0
        [some ⟨"u0", "doh", 5000⟩, some ⟨"u1", "doh", 5000⟩] =
      proxyLoop oneUpstreamProg failoverEnv aMsg [2] ["upstream.0", "upstream.1"] false none 2 0
        1 [some ⟨"u1", "doh", 5000⟩] ∧
    proxy oneUpstreamProg failoverEnv 0 ["upstream.0"] [2] aMsg =
      finalizeAnswer oneUpstreamProg 0 aMsg "upstream.0" servfailAns :=
  ⟨(claim_c2 oneUpstreamProg failoverEnv aMsg [2] ["upstream.0", "upstream.1"] ["upstream.0"]
      false none 2 0 0 (some ⟨"u0", "doh", 5000⟩) (some ⟨"u0", "doh", 5000⟩)
      [some ⟨"u1", "doh", 5000⟩] "upstream.0" none servfailAns).1
      (by decide) (by decide) (by decide) (by decide),
   (claim_c2 oneUpstreamProg failoverEnv aMsg [2] ["upstream.0", "upstream.1"] ["upstream.0"]
      false none 2 0 0 (some ⟨"u0", "doh", 5000⟩) (some ⟨"u0", "doh", 5000⟩)
      [some ⟨"u1", "doh", 5000⟩] "upstream.0" none servfailAns).2
      (by decide) (by decide) (by decide) (by decide) (by decide)⟩

/-- Claim C8: a query matching no network rule and no domain rule is
answered REFUSED on a restricted listener without consulting the proxy
engine or any upstream (the reply is a constant independent of the
resolution oracle and leaves the cache unchanged), while on an
unrestricted listener the same query is resolved through the listener's
own default upstream. -/
theorem claim_c8 (p : Prog) (env : ResolveEnv) (now : Int) (ln : String)
    (lc : ListenerConfig) (pol : Policy) (addr : NetAddr) (m : DnsMsg)
    (hpol : lc.policy = some pol)
    (hnet : findNetworkMatch p (sourceIPOf addr) pol.networks = none)
    (hdom : findDomainMatch (requestDomain m) pol.rules = none) :
    (lc.restricted = true →
      handleQuery p env now ln lc addr m = (setRcode emptyMsg m RcodeRefused, p.cache)) ∧
    (lc.restricted = false →
      handleQuery p env now ln lc addr m =
        proxy p env now ["upstream." ++ ln] pol.failoverRcodeNumbers m) := by
  have hup : upstreamFor p ln lc addr (requestDomain m) = (["upstream." ++ ln], false) := by
    unfold upstreamFor upstreamForFull
    rw [hpol]
    dsimp only
    rw [hnet]
    dsimp only
    rw [hdom]
  constructor
  · intro hres
    unfold handleQuery
    rw [hup, hres]
    dsimp only
    rw [if_pos ⟨rfl, rfl⟩]
  · intro hres
    unfold handleQuery
    rw [hup, hres]
    dsimp only
    rw [if_neg]
    · unfold listenerFailoverRcodes
      rw [hpol]
    · rintro ⟨-, hcontra⟩
      exact Bool.false_ne_true hcontra

/-- Witness for claim C8 at an unmatched source address and domain, once
on a restricted and once on an unrestricted listener. -/
theorem claim_c8_witness :
    handleQuery lanProg allFailEnv 0 "0" restrictedListener (NetAddr.udp 0x0B000001) aMsg =
      (setRcode emptyMsg aMsg RcodeRefused, lanProg.cache) ∧
    handleQuery lanProg allFailEnv 0 "0" openListener (NetAddr.udp 0x0B000001) aMsg =
      proxy lanProg allFailEnv 0 ["upstream." ++ "0"] unmatchedPolicy.failoverRcodeNumbers
        aMsg :=
  ⟨(claim_c8 lanProg allFailEnv 0 "0" restrictedListener unmatchedPolicy
      (NetAddr.udp 0x0B000001) aMsg rfl (by decide) (by decide)).1 rfl,
   (claim_c8 lanProg allFailEnv 0 "0" openListener unmatchedPolicy
      (NetAddr.udp 0x0B000001) aMsg rfl (by decide) (by decide)).2 rfl⟩

/-- Claim C9: when the cache scan produces neither a fresh nor a stale
candidate and every resolution attempt against every candidate upstream
fails, `proxy` still returns a reply — the synthetic SERVFAIL built by
`SetRcode` on a fresh message: its rcode is SERVFAIL, its id is the
query's id, and its question section echoes the query's (single)
question; the cache is left unchanged. -/
theorem claim_c9 (p : Prog) (env : ResolveEnv) (now : Int) (ups0 : List String)
    (fr : List Nat) (msg : DnsMsg)
    (hscan : proxyScanResult p msg now (effectiveUpstreams p ups0).2 = (none, none))
    (hfail : ∀ m k, env.attempt m k = none) :
    proxy p env now ups0 fr msg = (setRcode emptyMsg msg RcodeServerFailure, p.cache) ∧
    (proxy p env now ups0 fr msg).1.rcode = RcodeServerFailure ∧
    (proxy p env now ups0 fr msg).1.id = msg.id ∧
    (∀ q, msg.question = [q] → (proxy p env now ups0 fr msg).1.question = msg.question) := by
  have hmain : proxy p env now ups0 fr msg =
      (setRcode emptyMsg msg RcodeServerFailure, p.cache) := by
    unfold proxy
    rw [hscan]
    dsimp only
    exact proxyLoop_all_fail p env msg fr (effectiveUpstreams p ups0).2
      (p.cacheEnabled && p.cfg.service.cacheServeStale) (effectiveUpstreams p ups0).1.length
      now hfail (effectiveUpstreams p ups0).1 0
  refine ⟨hmain, ?_, ?_, ?_⟩
  · rw [hmain]
    rfl
  · rw [hmain]
    rfl
  · intro q hq
    rw [hmain]
    unfold setRcode setReply
    dsimp only
    rw [hq]

/-- Witness for claim C9: one configured upstream, all attempts fail, no
cache. -/
theorem claim_c9_witness :
    proxy oneUpstreamProg allFailEnv 0 ["upstream.0"] [] aMsg =
      (setRcode emptyMsg aMsg RcodeServerFailure, oneUpstreamProg.cache) ∧
    (proxy oneUpstreamProg allFailEnv 0 ["upstream.0"] [] aMsg).1.rcode =
      RcodeServerFailure :=
  ⟨(claim_c9 oneUpstreamProg allFailEnv 0 ["upstream.0"] [] aMsg (by decide)
      (fun m k => rfl)).1,
   (claim_c9 oneUpstreamProg allFailEnv 0 ["upstream.0"] [] aMsg (by decide)
      (fun m k => rfl)).2.1⟩

/-- Claim C7: with a cached entry stored by the proxy for a cacheable
(non-PTR) query under the key of that query and upstream, a later proxy
call for the same query before the stored expiry returns the cached
message re-addressed to the live query with every answer and authority
record TTL — and every non-OPT additional record TTL — rewritten to the
seconds remaining until expiry, without contacting any upstream (the
result is the same for every resolution oracle) and without touching the
cache (first conjunct); a call at or after the expiry treats the entry as
a cache miss for freshness, and when stale serving is enabled and every
resolution attempt fails, the expired entry is served with all those TTLs
set to exactly 60 (second conjunct). -/
theorem claim_c7 (p : Prog) (c0 : Cache) (msg : DnsMsg) (q : Question) (u : String)
    (ans : DnsMsg) (expired : Int) (ups0 : List String) (fr : List Nat)
    (now2 now3 : Int) (env2 env3 : ResolveEnv) (rest : List String)
    (cfg2 : List (Option UpstreamConfig)) (c3 : Option UpstreamConfig)
    (rest3 : List (Option UpstreamConfig))
    (hq : msg.question = [q]) (hptr : q.qtype ≠ TypePTR) (hce : p.cacheEnabled = true)
    (hcache : p.cache = cacheAdd c0 (newKey msg u) ⟨ans, expired⟩) :
    (effectiveUpstreams p ups0 = (cfg2, u :: rest) → now2 < expired →
      proxy p env2 now2 ups0 fr msg =
        (setCachedAnswerTTL (setRcode ans msg ans.rcode) now2 expired, p.cache) ∧
      (expired - now2 < 4294967296 →
        (∀ rr ∈ (proxy p env2 now2 ups0 fr msg).1.answer, rr.ttl = (expired - now2).toNat) ∧
        (∀ rr ∈ (proxy p env2 now2 ups0 fr msg).1.ns, rr.ttl = (expired - now2).toNat) ∧
        (∀ rr ∈ (proxy p env2 now2 ups0 fr msg).1.extra, rr.rrtype ≠ TypeOPT →
          rr.ttl = (expired - now2).toNat))) ∧
    (effectiveUpstreams p ups0 = (c3 :: rest3, [u]) → expired ≤ now3 →
      p.cfg.service.cacheServeStale = true → (∀ m k, env3.attempt m k = none) →
      proxy p env3 now3 ups0 fr msg =
        (setCachedAnswerTTL (setRcode ans msg ans.rcode) now3 (now3 + staleTTL), p.cache) ∧
      (∀ rr ∈ (proxy p env3 now3 ups0 fr msg).1.answer, rr.ttl = 60) ∧
      (∀ rr ∈ (proxy p env3 now3 ups0 fr msg).1.ns, rr.ttl = 60) ∧
      (∀ rr ∈ (proxy p env3 now3 ups0 fr msg).1.extra, rr.rrtype ≠ TypeOPT →
        rr.ttl = 60)) := by
  constructor
  · intro heu hlt
    have hmain : proxy p env2 now2 ups0 fr msg =
        (setCachedAnswerTTL (setRcode ans msg ans.rcode) now2 expired, p.cache) := by
      unfold proxy
      rw [heu]
      dsimp only
      rw [proxyScanResult_hit_fresh p msg q u ans expired c0 now2 rest hq hptr hce hcache hlt]
    refine ⟨hmain, ?_⟩
    intro hlt2
    rw [hmain]
    dsimp only
    exact setCachedAnswerTTL_ttls (setRcode ans msg ans.rcode) now2 expired (by omega) hlt2
  · intro heu hle hss hfail
    have hscan := proxyScanResult_hit_stale p msg q u ans expired c0 now3 hq hptr hce hcache hle
    have hmain : proxy p env3 now3 ups0 fr msg =
        (setCachedAnswerTTL (setRcode ans msg ans.rcode) now3 (now3 + staleTTL), p.cache) := by
      unfold proxy
      rw [heu]
      dsimp only
      rw [hscan]
      dsimp only
      rw [proxyLoop.eq_def]
      dsimp only
      rw [resolveOnce_none env3 0 hfail]
      dsimp only
      rw [hce, hss, Bool.and_self]
      rw [staleServe_some]
    have h60 : (now3 + staleTTL - now3).toNat = 60 := by
      unfold staleTTL
      omega
    have httl := setCachedAnswerTTL_ttls (setRcode ans msg ans.rcode) now3 (now3 + staleTTL)
      (by unfold staleTTL; omega) (by unfold staleTTL; omega)
    rw [h60] at httl
    refine ⟨hmain, ?_, ?_, ?_⟩
    · rw [hmain]
      exact httl.1
    · rw [hmain]
      exact httl.2.1
    · rw [hmain]
      exact httl.2.2

/-- Witness for claim C7: a stored answer expiring at time 300 is served
from the cache at time 100 even though every upstream fails, and is
served as the stale fallback at time 300. -/
theorem claim_c7_witness :
    (proxy staleProg allFailEnv 100 ["upstream.0"] [] aMsg =
      (setCachedAnswerTTL (setRcode okAns aMsg okAns.rcode) 100 300, staleProg.cache) ∧
     ∀ rr ∈ (proxy staleProg allFailEnv 100 ["upstream.0"] [] aMsg).1.answer,
       rr.ttl = ((300 : Int) - 100).toNat) ∧
    (proxy staleProg allFailEnv 300 ["upstream.0"] [] aMsg =
      (setCachedAnswerTTL (setRcode okAns aMsg okAns.rcode) 300 (300 + staleTTL),
        staleProg.cache) ∧
     ∀ rr ∈ (proxy staleProg allFailEnv 300 ["upstream.0"] [] aMsg).1.answer, rr.ttl = 60) :=
  ⟨⟨((claim_c7 staleProg [] aMsg aQuestion "upstream.0" okAns 300 ["upstream.0"] [] 100 300
      allFailEnv allFailEnv [] [some ⟨"u0", "doh", 5000⟩] (some ⟨"u0", "doh", 5000⟩) []
      rfl (by decide) rfl rfl).1 (by decide) (by decide)).1,
    (((claim_c7 staleProg [] aMsg aQuestion "upstream.0" okAns 300 ["upstream.0"] [] 100 300
      allFailEnv allFailEnv [] [some ⟨"u0", "doh", 5000⟩] (some ⟨"u0", "doh", 5000⟩) []
      rfl (by decide) rfl rfl).1 (by decide) (by decide)).2 (by decide)).1⟩,
   ⟨((claim_c7 staleProg [] aMsg aQuestion "upstream.0" okAns 300 ["upstream.0"] [] 100 300
      allFailEnv allFailEnv [] [some ⟨"u0", "doh", 5000⟩] (some ⟨"u0", "doh", 5000⟩) []
      rfl (by decide) rfl rfl).2 (by decide) (by decide) rfl (fun m k => rfl)).1,
    ((claim_c7 staleProg [] aMsg aQuestion "upstream.0" okAns 300 ["upstream.0"] [] 100 300
      allFailEnv allFailEnv [] [some ⟨"u0", "doh", 5000⟩] (some ⟨"u0", "doh", 5000⟩) []
      rfl (by decide) rfl rfl).2 (by decide) (by decide) rfl (fun m k => rfl)).2.1⟩⟩
